import Mathlib

/-!
Shallow embedding of the request handlers of `go-libp2p-kad-dht`
(file `handlers.go`) and proofs about them.

Byte strings are modelled as `List Nat`; peer identifiers (Go `peer.ID`,
a byte string) as byte strings as well, so the Go cast
`peer.ID(pmes.GetKey())` is the identity.  External collaborators
(validator, routing table, connectivity oracle, provider index, cid
parsing) are oracle functions carried by the `IpfsDHT` structure;
mutable collaborators (datastore, peerstore, provider index contents)
live in a `State` record that handlers thread explicitly.  Go's
`(*pb.Message, error)` return value is modelled as a pair of options,
`none` standing for Go `nil`.
-/

namespace DhtSpec

/-- Byte strings (Go `[]byte`). -/
abbrev Bytes := List Nat

/-- Peer identifiers (Go `peer.ID`, a byte string). -/
abbrev PeerId := List Nat

/-- Opaque network addresses (Go `ma.Multiaddr`), modelled abstractly. -/
abbrev Addr := Nat

/-- Go `network.Connectedness` values. -/
inductive Connectedness where
  | NotConnected
  | Connected
  | CanConnect
  | CannotConnect
deriving DecidableEq, Repr

/-- The `timeReceived` string of a record.  Go stores an RFC3339 string;
we model the three relevant classes of strings: the empty string, a
string that parses to a time `t`, and an arbitrary unparseable string. -/
inductive TimeStr where
  | empty
  | valid (t : Int)
  | invalid (code : Nat)
deriving DecidableEq, Repr

/-- Go `u.ParseRFC3339`: succeeds exactly on well-formed time strings. -/
def parseRFC3339 : TimeStr → Option Int
  | .valid t => some t
  | _ => none

/-- Go `u.FormatRFC3339 t`: produces a string that parses back to `t`. -/
def formatRFC3339 (t : Int) : TimeStr := .valid t

/-- Go `recpb.Record`. -/
structure Record where
  key : Bytes
  value : Bytes
  timeReceived : TimeStr
deriving DecidableEq, Repr

/-- A byte blob stored in the datastore: either the protobuf encoding of
a record, or bytes that do not decode to a record. -/
inductive Blob where
  | recBlob (r : Record)
  | raw (code : Nat)
deriving DecidableEq, Repr

/-- Go `proto.Marshal` on a `recpb.Record` (total: marshalling a record
value cannot fail). -/
def protoMarshalRecord (r : Record) : Blob := .recBlob r

/-- Go `proto.Unmarshal` into a `recpb.Record`: succeeds exactly on
blobs that encode a record. -/
def protoUnmarshalRecord : Blob → Option Record
  | .recBlob r => some r
  | .raw _ => none

/-- Go `pb.Message_MessageType`. -/
inductive MessageType where
  | PUT_VALUE
  | GET_VALUE
  | ADD_PROVIDER
  | GET_PROVIDERS
  | FIND_NODE
  | PING
deriving DecidableEq, Repr

/-- A wire peer descriptor (Go `pb.Message_Peer`). -/
structure PBPeer where
  id : PeerId
  addrs : List Addr
  connection : Connectedness
deriving DecidableEq, Repr

/-- Go `pb.Message`. -/
structure Message where
  type : MessageType
  key : Bytes
  record : Option Record
  closerPeers : List PBPeer
  providerPeers : List PBPeer
  clusterLevel : Int
deriving DecidableEq, Repr

/-- Go `pb.NewMessage typ key level`. -/
def NewMessage (typ : MessageType) (key : Bytes) (level : Int) : Message :=
  { type := typ, key := key, record := none, closerPeers := [],
    providerPeers := [], clusterLevel := level }

/-- Go `peer.AddrInfo`: an identifier with its known addresses. -/
structure AddrInfo where
  id : PeerId
  addrs : List Addr
deriving DecidableEq, Repr

/-- Go `pstore.PeerInfos ps pids`: resolve each identifier through the
peerstore (modelled as a function from identifiers to address lists). -/
def PeerInfos (ps : PeerId → List Addr) (pids : List PeerId) : List AddrInfo :=
  pids.map (fun pid => { id := pid, addrs := ps pid })

/-- Go `pb.PeerInfosToPBPeers net infos`: attach the connectedness of
each peer as reported by the network. -/
def PeerInfosToPBPeers (conn : PeerId → Connectedness) (infos : List AddrInfo) :
    List PBPeer :=
  infos.map (fun pi => { id := pi.id, addrs := pi.addrs, connection := conn pi.id })

/-- Go `pb.PBPeersToPeerInfos`: strip the connection field. -/
def PBPeersToPeerInfos (pbs : List PBPeer) : List AddrInfo :=
  pbs.map (fun q => { id := q.id, addrs := q.addrs })

/-- The value of a big-endian bit list. -/
def bitsVal (c : List Nat) : Nat := c.foldl (fun a x => a * 2 + x) 0

/-- Group the RFC 4648 base-32 bit stream into five-bit values, padding
the final short group with zero bits. -/
def groupBitsBase32 : List Nat → List Nat
  | [] => []
  | a :: b :: c :: d :: e :: rest => bitsVal [a, b, c, d, e] :: groupBitsBase32 rest
  | l => [bitsVal l * 2 ^ (5 - l.length)]

/-- The eight bits of a byte, most significant first. -/
def byteBits (b : Nat) : List Nat :=
  (List.range 8).map (fun i => b / 2 ^ (7 - i) % 2)

/-- The standard base-32 alphabet used by `base32.RawStdEncoding`. -/
def base32Alphabet : List Char := "ABCDEFGHIJKLMNOPQRSTUVWXYZ234567".toList

/-- Go `base32.RawStdEncoding.EncodeToString`: unpadded RFC 4648
standard base-32. -/
def base32Encode (bs : Bytes) : String :=
  String.mk ((groupBitsBase32 (bs.flatMap byteBits)).map
    (fun v => base32Alphabet.getD v 'A'))

/-- Go `convertToDsKey` in `handlers.go` (`ds.NewKey` prefixes "/"). -/
def convertToDsKey (s : Bytes) : String :=
  "/" ++ base32Encode s

/-- A datastore error other than not-found, as seen by `Has`. -/
inductive DsErr where
  | notFound
  | otherErr (code : Nat)
deriving DecidableEq, Repr

/-- The external datastore: a map from encoded keys to blobs, together
with per-key fault injection for each operation of its contract
(`get`/`put`/`delete` may fail; `has` answers an arbitrary pair of a
boolean and an optional error, reflecting that it is an external
collaborator). -/
structure Datastore where
  data : String → Option Blob
  getErr : String → Bool
  putErr : String → Bool
  deleteErr : String → Bool
  has : String → Bool × Option DsErr

/-- Datastore `Put` on a key where `putErr` is false. -/
def dsPut (d : Datastore) (k : String) (v : Blob) : Datastore :=
  { d with data := fun x => if x = k then some v else d.data x }

/-- Datastore `Delete` on a key where `deleteErr` is false. -/
def dsDelete (d : Datastore) (k : String) : Datastore :=
  { d with data := fun x => if x = k then none else d.data x }

/-- The pluggable record validator (Go `record.Validator`):
`validate key value` returns `none` on acceptance or an error code, and
`select key values` returns the index of the preferred value or an
error code. -/
structure Validator where
  validate : Bytes → Bytes → Option Nat
  select : Bytes → List Bytes → Except Nat Nat

/-- Errors a handler can return, one constructor per `errors.New` /
propagated-error site in `handlers.go`. -/
inductive DhtError where
  | noKey
  | nilRecord
  | keyMismatch
  | validateErr (code : Nat)
  | selectErr (code : Nat)
  | oldRecord
  | dsGetErr
  | dsPutErr
  | unmarshalErr
  | cidErr
deriving DecidableEq, Repr

/-- Modelled from the spec: `KValue`, the fixed closer-peer count, is
defined outside `handlers.go`; the spec only requires it to be a fixed
count, and no claim depends on its value. -/
def KValue : Nat := 20

/-- Go `CloserPeerCount = KValue` in `handlers.go`. -/
def CloserPeerCount : Nat := KValue

/-- The node context (Go `IpfsDHT`): its own identity, its clock, and
its immutable collaborator oracles.  `MaxRecordAge` and the routing
table, connectivity, provider-index query and cid parsing are defined
outside `handlers.go` and appear here as fields.  `now` is the server
clock at the time of the handled request. -/
structure IpfsDHT where
  self : PeerId
  Validator : Validator
  betterPeersToQuery : Message → PeerId → Nat → List PeerId
  connectedness : PeerId → Connectedness
  getProviders : Bytes → List PeerId
  cidCast : Bytes → Option Bytes
  MaxRecordAge : Int
  now : Int

/-- The mutable collaborator state threaded through a handler call:
datastore contents, peerstore (address book) and the provider index
(a list of content-key/provider associations, appended in order). -/
structure State where
  datastore : Datastore
  peerstore : PeerId → List Addr
  providersIdx : List (Bytes × PeerId)

/-- The outcome of a handler call: Go's `(*pb.Message, error)` pair
(`none` = Go `nil`) plus the state after the call's side effects. -/
structure HandlerResult where
  resp : Option Message
  err : Option DhtError
  st : State

/-- Go `checkLocalDatastore` in `handlers.go`: look the key up, decode,
check freshness, and delete a bad record best-effort (a failing delete
is logged, not propagated, and leaves the data unchanged). -/
def checkLocalDatastore (dht : IpfsDHT) (st : State) (k : Bytes) :
    Except DhtError (Option Record) × State :=
  let dskey := convertToDsKey k
  if st.datastore.getErr dskey then (.error .dsGetErr, st)
  else
    match st.datastore.data dskey with
    | none => (.ok none, st)
    | some buf =>
      match protoUnmarshalRecord buf with
      | none => (.error .unmarshalErr, st)
      | some rec =>
        let recordIsBad :=
          match parseRFC3339 rec.timeReceived with
          | none => true
          | some recvtime => dht.now - recvtime > dht.MaxRecordAge
        if recordIsBad then
          if st.datastore.deleteErr dskey then (.ok none, st)
          else (.ok none, { st with datastore := dsDelete st.datastore dskey })
        else (.ok (some rec), st)

/-- Go `handleGetValue` in `handlers.go`. -/
def handleGetValue (dht : IpfsDHT) (st : State) (p : PeerId) (pmes : Message) :
    HandlerResult :=
  let resp := NewMessage pmes.type pmes.key pmes.clusterLevel
  let k := pmes.key
  if k = [] then { resp := none, err := some .noKey, st := st }
  else
    match checkLocalDatastore dht st k with
    | (.error e, st1) => { resp := none, err := some e, st := st1 }
    | (.ok rec, st1) =>
      let resp1 := { resp with record := rec }
      let closer := dht.betterPeersToQuery pmes p CloserPeerCount
      let resp2 :=
        if closer.length > 0 then
          { resp1 with closerPeers :=
              PeerInfosToPBPeers dht.connectedness (PeerInfos st1.peerstore closer) }
        else resp1
      { resp := some resp2, err := none, st := st1 }

/-- Go `cleanRecord`: strip any client-supplied receipt timestamp
(sets the `timeReceived` string to the empty string). -/
def cleanRecord (rec : Record) : Record :=
  { rec with timeReceived := .empty }

/-- The striped-lock index computed in `handlePutValue`: the key's
trailing byte, or 0 for an empty key. -/
def indexForLock (k : Bytes) : Nat :=
  if k = [] then 0 else k.getLastD 0

/-- Go `getRecordFromDatastore`: returns `.ok none` when nothing is
found or the found value does not unmarshal or does not validate, and a
datastore error only when `Get` itself fails. -/
def getRecordFromDatastore (dht : IpfsDHT) (st : State) (dskey : String) :
    Except DhtError (Option Record) :=
  if st.datastore.getErr dskey then .error .dsGetErr
  else
    match st.datastore.data dskey with
    | none => .ok none
    | some buf =>
      match protoUnmarshalRecord buf with
      | none => .ok none
      | some rec =>
        match dht.Validator.validate rec.key rec.value with
        | some _ => .ok none
        | none => .ok (some rec)

/-- Go `handlePutValue` in `handlers.go`.  The striped lock is taken at
`indexForLock rec.key`; the embedding is sequential, so the lock has no
observable effect here and only its index function is modelled.  The
final Go statement is `return pmes, err`, so a failing `Put` returns
the echoed message together with the error. -/
def handlePutValue (dht : IpfsDHT) (st : State) (_p : PeerId) (pmes : Message) :
    HandlerResult :=
  match pmes.record with
  | none => { resp := none, err := some .nilRecord, st := st }
  | some rec0 =>
    if pmes.key ≠ rec0.key then { resp := none, err := some .keyMismatch, st := st }
    else
      let rec1 := cleanRecord rec0
      match dht.Validator.validate rec1.key rec1.value with
      | some e => { resp := none, err := some (.validateErr e), st := st }
      | none =>
        let dskey := convertToDsKey rec1.key
        match getRecordFromDatastore dht st dskey with
        | .error e => { resp := none, err := some e, st := st }
        | .ok existing =>
          let selOutcome : Except DhtError Unit :=
            match existing with
            | none => .ok ()
            | some ex =>
              match dht.Validator.select rec1.key [rec1.value, ex.value] with
              | .error e => .error (.selectErr e)
              | .ok i => if i ≠ 0 then .error .oldRecord else .ok ()
          match selOutcome with
          | .error e => { resp := none, err := some e, st := st }
          | .ok _ =>
            let recStamped := { rec1 with timeReceived := formatRFC3339 dht.now }
            let data := protoMarshalRecord recStamped
            let pmes1 := { pmes with record := some recStamped }
            if st.datastore.putErr dskey then
              { resp := some pmes1, err := some .dsPutErr, st := st }
            else
              { resp := some pmes1, err := none,
                st := { st with datastore := dsPut st.datastore dskey data } }

/-- Go `handlePing`: echo the request, no side effects, never fails. -/
def handlePing (_dht : IpfsDHT) (st : State) (_p : PeerId) (pmes : Message) :
    HandlerResult :=
  { resp := some pmes, err := none, st := st }

/-- The `closest` list computed by Go `handleFindPeer`: the self
special case, otherwise the routing-table answer plus the
connectivity-based append of the target (never when the target is the
requester). -/
def findPeerClosest (dht : IpfsDHT) (p : PeerId) (pmes : Message) : List PeerId :=
  let targetPid : PeerId := pmes.key
  if targetPid = dht.self then [dht.self]
  else
    let closest := dht.betterPeersToQuery pmes p CloserPeerCount
    if targetPid ≠ p then
      match dht.connectedness targetPid with
      | .Connected => closest ++ [targetPid]
      | .CanConnect => closest ++ [targetPid]
      | _ => closest
    else closest

/-- Go `handleFindPeer` in `handlers.go`: the response key is empty;
peers are resolved through the peerstore and peers with no addresses
are dropped before building the response. -/
def handleFindPeer (dht : IpfsDHT) (st : State) (p : PeerId) (pmes : Message) :
    HandlerResult :=
  let resp := NewMessage pmes.type [] pmes.clusterLevel
  let closest := findPeerClosest dht p pmes
  if closest = [] then { resp := some resp, err := none, st := st }
  else
    let closestinfos := PeerInfos st.peerstore closest
    let withAddresses := closestinfos.filter (fun pi => pi.addrs.length > 0)
    let closerPBs := PeerInfosToPBPeers dht.connectedness withAddresses
    { resp := some { resp with closerPeers := closerPBs },
      err := none, st := st }

/-- The local-possession check of Go `handleGetProviders`: the `Has`
answer, with any error other than not-found forcing `has = false`. -/
def hasCheck (d : Datastore) (dskey : String) : Bool :=
  match d.has dskey with
  | (_, some (.otherErr _)) => false
  | (b, _) => b

/-- Go `handleGetProviders` in `handlers.go`: parse the key as a cid
(failure propagates), check local possession (self-announce as provider
when it holds), query the provider index, and attach closer peers. -/
def handleGetProviders (dht : IpfsDHT) (st : State) (p : PeerId) (pmes : Message) :
    HandlerResult :=
  let resp := NewMessage pmes.type pmes.key pmes.clusterLevel
  match dht.cidCast pmes.key with
  | none => { resp := none, err := some .cidErr, st := st }
  | some c =>
    let has := hasCheck st.datastore (convertToDsKey c)
    let providers0 := dht.getProviders c
    let providers := if has then providers0 ++ [dht.self] else providers0
    let resp1 :=
      if providers.length > 0 then
        { resp with providerPeers :=
            PeerInfosToPBPeers dht.connectedness (PeerInfos st.peerstore providers) }
      else resp
    let closer := dht.betterPeersToQuery pmes p CloserPeerCount
    let resp2 :=
      if closer ≠ [] then
        { resp1 with closerPeers :=
            PeerInfosToPBPeers dht.connectedness (PeerInfos st.peerstore closer) }
      else resp1
    { resp := some resp2, err := none, st := st }

/-- Go `peerstore.AddAddrs` (the provider TTL is owned by the peerstore
and not observable here): merge the addresses for one peer. -/
def addAddrs (ps : PeerId → List Addr) (pid : PeerId) (addrs : List Addr) :
    PeerId → List Addr :=
  fun q => if q = pid then ps q ++ addrs else ps q

/-- The per-record step of Go `handleAddProvider`'s loop: skip a record
whose identifier is not the requester or which has no addresses;
otherwise merge addresses (unless the peer is this node itself) and
append the provider association. -/
def addProviderStep (dht : IpfsDHT) (p : PeerId) (c : Bytes) (st : State)
    (pi : AddrInfo) : State :=
  if pi.id ≠ p then st
  else if pi.addrs.length < 1 then st
  else
    let st1 :=
      if pi.id ≠ dht.self then
        { st with peerstore := addAddrs st.peerstore pi.id pi.addrs }
      else st
    { st1 with providersIdx := st1.providersIdx ++ [(c, p)] }

/-- Go `handleAddProvider` in `handlers.go`: parse the key as a cid
(failure propagates), then process each carried provider record; the
success return is `nil, nil`. -/
def handleAddProvider (dht : IpfsDHT) (st : State) (p : PeerId) (pmes : Message) :
    HandlerResult :=
  match dht.cidCast pmes.key with
  | none => { resp := none, err := some .cidErr, st := st }
  | some c =>
    let pinfos := PBPeersToPeerInfos pmes.providerPeers
    let st1 := pinfos.foldl (addProviderStep dht p c) st
    { resp := none, err := none, st := st1 }

/-- Go `handlerForMsgType`: total dispatch over the closed message-type
enumeration (the Go `default: return nil` branch is unreachable for the
six declared types). -/
def handlerForMsgType (t : MessageType) :
    Option (IpfsDHT → State → PeerId → Message → HandlerResult) :=
  match t with
  | .GET_VALUE => some handleGetValue
  | .PUT_VALUE => some handlePutValue
  | .FIND_NODE => some handleFindPeer
  | .ADD_PROVIDER => some handleAddProvider
  | .GET_PROVIDERS => some handleGetProviders
  | .PING => some handlePing

/-! Concrete fixtures used by the witness and counterexample theorems. -/

/-- A validator that accepts every value and always selects index 0. -/
def okValidator : Validator :=
  { validate := fun _ _ => none, select := fun _ _ => .ok 0 }

/-- A validator whose selection always prefers the second (existing)
value. -/
def preferExistingValidator : Validator :=
  { validate := fun _ _ => none, select := fun _ _ => .ok 1 }

/-- An empty, fault-free datastore. -/
def emptyDatastore : Datastore :=
  { data := fun _ => none, getErr := fun _ => false, putErr := fun _ => false,
    deleteErr := fun _ => false, has := fun _ => (false, none) }

/-- A small concrete node: identity `[1]`, permissive validator, empty
routing table, nothing connected. -/
def testDHT : IpfsDHT :=
  { self := [1], Validator := okValidator,
    betterPeersToQuery := fun _ _ _ => [],
    connectedness := fun _ => .NotConnected,
    getProviders := fun _ => [],
    cidCast := fun b => some b,
    MaxRecordAge := 100, now := 1000 }

/-- A state with an empty datastore, empty peerstore and empty provider
index. -/
def testState : State :=
  { datastore := emptyDatastore, peerstore := fun _ => [], providersIdx := [] }

/-- A concrete record stored under key `[7]` in some fixtures. -/
def storedRec : Record := { key := [7], value := [5], timeReceived := .empty }

/-- A concrete incoming record for key `[7]`. -/
def incomingRec : Record := { key := [7], value := [6], timeReceived := .empty }

/-- A fault-free state whose datastore holds `storedRec` under the
encoded key `[7]`. -/
def storedState : State :=
  { testState with datastore :=
      { emptyDatastore with data := fun k =>
          if k = convertToDsKey [7] then some (protoMarshalRecord storedRec)
          else none } }

/-- A PUT_VALUE message for key `[7]` carrying `incomingRec`. -/
def putMsg : Message :=
  { NewMessage .PUT_VALUE [7] 0 with record := some incomingRec }

/-- A state whose datastore rejects every `Put`. -/
def putErrState : State :=
  { testState with datastore := { emptyDatastore with putErr := fun _ => true } }

/-- A state whose datastore answers every `Has` with `(true, nil)`. -/
def hasTrueState : State :=
  { testState with datastore := { emptyDatastore with has := fun _ => (true, none) } }

/-- An ADD_PROVIDER message for key `[7]` carrying three provider
records: one from the requester `[2]` with an address, one from a third
party `[3]`, and one from the requester with no addresses. -/
def addProvMsg : Message :=
  { NewMessage .ADD_PROVIDER [7] 0 with providerPeers :=
      [ { id := [2], addrs := [9], connection := .NotConnected },
        { id := [3], addrs := [9], connection := .NotConnected },
        { id := [2], addrs := [], connection := .NotConnected } ] }

/-- A concrete record with the empty key. -/
def emptyKeyRec : Record := { key := [], value := [5], timeReceived := .empty }

/-- A PUT_VALUE message with empty message key carrying `emptyKeyRec`. -/
def emptyKeyPutMsg : Message :=
  { NewMessage .PUT_VALUE [] 0 with record := some emptyKeyRec }

/-- A state whose peerstore knows one address for the node `[1]`. -/
def selfAddrState : State :=
  { testState with peerstore := fun q => if q = [1] then [5] else [] }

/-- A FIND_NODE request for the test node's own identifier. -/
def selfFindMsg : Message := NewMessage .FIND_NODE [1] 0

/-- The wire descriptor of the test node as seen through
`selfAddrState` and `testDHT`. -/
def selfEntryPB : PBPeer := { id := [1], addrs := [5], connection := .NotConnected }

/-- The response `handleFindPeer` builds for `selfFindMsg` over
`selfAddrState`. -/
def selfFindResp : Message :=
  { NewMessage .FIND_NODE [] 0 with closerPeers := [selfEntryPB] }

/-- The wire descriptor a node builds for itself from its peerstore
and connectivity oracle. -/
def selfPBPeer (dht : IpfsDHT) (st : State) : PBPeer :=
  { id := dht.self, addrs := st.peerstore dht.self,
    connection := dht.connectedness dht.self }

/-- C9: handlePutValue is invariant under the incoming record's
`timeReceived` field: the client-supplied receipt timestamp is cleared
before validation, so two PUT_VALUE requests identical except for that
field yield the same validation outcome, the same conflict-resolution
outcome, the same persisted bytes, and the same response. -/
theorem putValue_ignores_wire_time (dht : IpfsDHT) (st : State) (p : PeerId)
    (pmes : Message) (rec0 : Record) (t : TimeStr) :
    handlePutValue dht st p { pmes with record := some rec0 } =
      handlePutValue dht st p { pmes with record := some { rec0 with timeReceived := t } } :=
  rfl

/-- C2: a PUT_VALUE carrying no record, or a record whose key differs
from the message key, fails (no response, some error) and performs no
store mutation: the state is returned unchanged. -/
theorem putValue_malformed_fails (dht : IpfsDHT) (st : State) (p : PeerId)
    (pmes : Message)
    (h : pmes.record = none ∨
      ∃ rec0, pmes.record = some rec0 ∧ pmes.key ≠ rec0.key) :
    (handlePutValue dht st p pmes).resp = none ∧
    (handlePutValue dht st p pmes).err.isSome = true ∧
    (handlePutValue dht st p pmes).st = st := by
  rcases h with h | ⟨rec0, hrec, hkey⟩
  · simp [handlePutValue, h]
  · simp [handlePutValue, hrec, hkey]

/-- Witness for C2: a concrete record-less PUT_VALUE fails and leaves
the state unchanged. -/
theorem putValue_malformed_fails_witness :
    (handlePutValue testDHT testState [2]
        (NewMessage .PUT_VALUE [7] 0)).resp = none ∧
    (handlePutValue testDHT testState [2]
        (NewMessage .PUT_VALUE [7] 0)).err.isSome = true ∧
    (handlePutValue testDHT testState [2]
        (NewMessage .PUT_VALUE [7] 0)).st = testState :=
  putValue_malformed_fails testDHT testState [2] (NewMessage .PUT_VALUE [7] 0)
    (Or.inl rfl)

/-- C1: when a valid existing record is present at the key and the
validator's selection prefers it (returns an index other than 0), the
PUT_VALUE fails with the "old record" error and the state — in
particular the bytes stored under the key — is unchanged. -/
theorem putValue_old_record_rejected (dht : IpfsDHT) (st : State) (p : PeerId)
    (pmes : Message) (rec0 ex : Record) (i : Nat)
    (hrec : pmes.record = some rec0)
    (hkey : pmes.key = rec0.key)
    (hval : dht.Validator.validate rec0.key rec0.value = none)
    (hex : getRecordFromDatastore dht st (convertToDsKey rec0.key) = .ok (some ex))
    (hsel : dht.Validator.select rec0.key [rec0.value, ex.value] = .ok i)
    (hi : i ≠ 0) :
    handlePutValue dht st p pmes =
      { resp := none, err := some .oldRecord, st := st } := by
  simp only [handlePutValue, hrec, hkey, cleanRecord, hval, hex, hsel, hi,
    ne_eq, not_true_eq_false, if_false, ite_not]

/-- Witness for C1: a concrete PUT_VALUE against a stored record that
the validator prefers fails with the old-record error. -/
theorem putValue_old_record_rejected_witness :
    handlePutValue { testDHT with Validator := preferExistingValidator }
        storedState [2] putMsg =
      { resp := none, err := some .oldRecord, st := storedState } :=
  putValue_old_record_rejected _ _ _ _ incomingRec storedRec 1
    rfl rfl rfl rfl rfl (by decide)

/-- Helper: on a stored blob that decodes to a stale record (missing or
unparseable receipt time, or age strictly over `MaxRecordAge`),
`checkLocalDatastore` reports "no record" and deletes the entry unless
the delete itself fails. -/
theorem checkLocalDatastore_stale (dht : IpfsDHT) (st : State) (k : Bytes)
    (buf : Blob) (rec0 : Record)
    (hget : st.datastore.getErr (convertToDsKey k) = false)
    (hdata : st.datastore.data (convertToDsKey k) = some buf)
    (hdec : protoUnmarshalRecord buf = some rec0)
    (hstale : parseRFC3339 rec0.timeReceived = none ∨
      ∃ t, parseRFC3339 rec0.timeReceived = some t ∧
        dht.now - t > dht.MaxRecordAge) :
    checkLocalDatastore dht st k =
      (.ok none,
        if st.datastore.deleteErr (convertToDsKey k) then st
        else { st with datastore := dsDelete st.datastore (convertToDsKey k) }) := by
  have hbad : (match parseRFC3339 rec0.timeReceived with
      | none => true
      | some recvtime => decide (dht.now - recvtime > dht.MaxRecordAge)) = true := by
    rcases hstale with h | ⟨t, ht, hage⟩
    · rw [h]
    · rw [ht]
      simpa using hage
  simp only [checkLocalDatastore, hget, hdata, hdec, Bool.false_eq_true, if_false,
    hbad, if_true]
  by_cases hdel : st.datastore.deleteErr (convertToDsKey k) = true <;> simp [hdel]

/-- C3: a GET_VALUE on a non-empty key whose stored record deserializes
but is stale (missing/unparseable receipt time or age over
`MaxRecordAge`) succeeds with no record in the response and no error;
the entry is deleted from the store, except that a failing delete
leaves the data unchanged (and is still not propagated). -/
theorem getValue_stale_evicted (dht : IpfsDHT) (st : State) (p : PeerId)
    (pmes : Message) (buf : Blob) (rec0 : Record)
    (hk : pmes.key ≠ [])
    (hget : st.datastore.getErr (convertToDsKey pmes.key) = false)
    (hdata : st.datastore.data (convertToDsKey pmes.key) = some buf)
    (hdec : protoUnmarshalRecord buf = some rec0)
    (hstale : parseRFC3339 rec0.timeReceived = none ∨
      ∃ t, parseRFC3339 rec0.timeReceived = some t ∧
        dht.now - t > dht.MaxRecordAge) :
    (handleGetValue dht st p pmes).err = none ∧
    (handleGetValue dht st p pmes).resp.isSome = true ∧
    ((handleGetValue dht st p pmes).resp.bind Message.record) = none ∧
    (handleGetValue dht st p pmes).st.datastore.data (convertToDsKey pmes.key) =
      (if st.datastore.deleteErr (convertToDsKey pmes.key) then
        st.datastore.data (convertToDsKey pmes.key) else none) := by
  have hc := checkLocalDatastore_stale dht st pmes.key buf rec0 hget hdata hdec hstale
  unfold handleGetValue
  rw [if_neg hk, hc]
  by_cases hdel : st.datastore.deleteErr (convertToDsKey pmes.key) = true
  · simp [hdel, apply_ite Message.record]
  · simp only [Bool.not_eq_true] at hdel
    simp [hdel, apply_ite Message.record, dsDelete]

/-- Witness for C3: a concrete GET_VALUE over a record with no receipt
time evicts it and answers with no record and no error. -/
theorem getValue_stale_evicted_witness :
    (handleGetValue testDHT storedState [2] (NewMessage .GET_VALUE [7] 0)).err = none ∧
    (handleGetValue testDHT storedState [2] (NewMessage .GET_VALUE [7] 0)).resp.isSome = true ∧
    ((handleGetValue testDHT storedState [2] (NewMessage .GET_VALUE [7] 0)).resp.bind
      Message.record) = none ∧
    (handleGetValue testDHT storedState [2]
        (NewMessage .GET_VALUE [7] 0)).st.datastore.data
      (convertToDsKey (NewMessage .GET_VALUE [7] 0).key) =
      (if storedState.datastore.deleteErr
          (convertToDsKey (NewMessage .GET_VALUE [7] 0).key) then
        storedState.datastore.data (convertToDsKey (NewMessage .GET_VALUE [7] 0).key)
      else none) :=
  getValue_stale_evicted testDHT storedState [2] (NewMessage .GET_VALUE [7] 0)
    (protoMarshalRecord storedRec) storedRec (by decide) rfl rfl rfl (Or.inl rfl)

/-- C10: handleGetValue always fails on an empty key, while
handlePutValue has no empty-key check: an empty-keyed record uses lock
stripe 0 and, when the validator accepts it and no valid record exists
at the key, is persisted under the encoded empty key, with no error. -/
theorem emptyKey_put_accepted_get_rejected (dht : IpfsDHT) (st : State) (p : PeerId)
    (pmesG pmesP : Message) (rec0 : Record)
    (hkG : pmesG.key = [])
    (hrecP : pmesP.record = some rec0)
    (hkP : pmesP.key = [])
    (hrk : rec0.key = [])
    (hval : dht.Validator.validate rec0.key rec0.value = none)
    (hex : getRecordFromDatastore dht st (convertToDsKey rec0.key) = .ok none)
    (hput : st.datastore.putErr (convertToDsKey rec0.key) = false) :
    handleGetValue dht st p pmesG = { resp := none, err := some .noKey, st := st } ∧
    indexForLock rec0.key = 0 ∧
    (handlePutValue dht st p pmesP).err = none ∧
    (handlePutValue dht st p pmesP).st.datastore.data (convertToDsKey rec0.key) =
      some (protoMarshalRecord { rec0 with timeReceived := formatRFC3339 dht.now }) := by
  rw [hrk] at hval hex hput
  refine ⟨?_, ?_, ?_, ?_⟩
  · simp [handleGetValue, hkG]
  · simp [indexForLock, hrk]
  · simp [handlePutValue, hrecP, hkP, hrk, cleanRecord, hval, hex, hput]
  · simp [handlePutValue, hrecP, hkP, hrk, cleanRecord, hval, hex, hput, dsPut]

/-- Witness for C10: a concrete empty-key GET_VALUE fails while a
concrete empty-key PUT_VALUE persists its record. -/
theorem emptyKey_put_accepted_get_rejected_witness :
    handleGetValue testDHT testState [2] (NewMessage .GET_VALUE [] 0) =
      { resp := none, err := some .noKey, st := testState } ∧
    indexForLock ([] : Bytes) = 0 ∧
    (handlePutValue testDHT testState [2] emptyKeyPutMsg).err = none ∧
    (handlePutValue testDHT testState [2] emptyKeyPutMsg).st.datastore.data
      (convertToDsKey emptyKeyRec.key) =
      some (protoMarshalRecord
        { emptyKeyRec with timeReceived := formatRFC3339 testDHT.now }) :=
  emptyKey_put_accepted_get_rejected testDHT testState [2]
    (NewMessage .GET_VALUE [] 0) emptyKeyPutMsg emptyKeyRec
    rfl rfl rfl rfl rfl rfl rfl

/-- C6: in the non-self branch of FIND_NODE, the answer set is the
routing-table answer plus the target appended exactly when the target
differs from the requester and is connected or connectable; in
particular, when the target equals the requester nothing is appended
even if connected. -/
theorem findPeer_never_appends_requester (dht : IpfsDHT) (p : PeerId) (pmes : Message)
    (hns : (pmes.key : PeerId) ≠ dht.self) :
    findPeerClosest dht p pmes =
      dht.betterPeersToQuery pmes p CloserPeerCount ++
        (if (pmes.key : PeerId) ≠ p ∧
            (dht.connectedness pmes.key = .Connected ∨
              dht.connectedness pmes.key = .CanConnect)
          then [(pmes.key : PeerId)] else []) := by
  unfold findPeerClosest
  rw [if_neg hns]
  by_cases hp : (pmes.key : PeerId) = p
  · simp [hp]
  · cases hc : dht.connectedness pmes.key <;> simp [hc, hp]

/-- Witness for C6: at a concrete non-self target the answer set equals
the characterization (here: empty routing table, target not
connected, so no append). -/
theorem findPeer_never_appends_requester_witness :
    findPeerClosest testDHT [2] (NewMessage .FIND_NODE [3] 0) =
      testDHT.betterPeersToQuery (NewMessage .FIND_NODE [3] 0) [2] CloserPeerCount ++
        (if ((NewMessage .FIND_NODE [3] 0).key : PeerId) ≠ [2] ∧
            (testDHT.connectedness (NewMessage .FIND_NODE [3] 0).key = .Connected ∨
              testDHT.connectedness (NewMessage .FIND_NODE [3] 0).key = .CanConnect)
          then [((NewMessage .FIND_NODE [3] 0).key : PeerId)] else []) :=
  findPeer_never_appends_requester testDHT [2] (NewMessage .FIND_NODE [3] 0) (by decide)

/-- Helper: FIND_NODE on this node's own identifier answers with
exactly this node when the peerstore knows at least one address for it;
the routing table plays no part in this computation. -/
theorem handleFindPeer_self (dht : IpfsDHT) (st : State) (p : PeerId) (pmes : Message)
    (hkey : (pmes.key : PeerId) = dht.self)
    (haddr : st.peerstore dht.self ≠ []) :
    handleFindPeer dht st p pmes =
      { resp := some { NewMessage pmes.type [] pmes.clusterLevel with closerPeers := [selfPBPeer dht st] },
        err := none, st := st } := by
  have hlen : 0 < (st.peerstore dht.self).length := List.length_pos.mpr haddr
  simp [handleFindPeer, findPeerClosest, hkey, PeerInfos, PeerInfosToPBPeers,
    List.filter, hlen, selfPBPeer]

/-- Counterexample for C5: with an address-less self in the peerstore,
FIND_NODE on this node's own identifier answers with an empty
closer-peer list, not with exactly this node. -/
theorem findPeer_self_addressless_counterexample :
    ((handleFindPeer testDHT testState [2] selfFindMsg).resp.map
      Message.closerPeers) = some ([] : List PBPeer) := by decide

/-- C5 (amended): FIND_NODE on this node's own identifier answers with
exactly this node, provided the address book knows at least one address
for this node (an address-less self is filtered out of the response);
the routing table is not consulted: the result is unchanged under any
replacement of the routing-table oracle. -/
theorem findPeer_self_shortcut (dht : IpfsDHT) (st : State) (p : PeerId)
    (pmes : Message) (f : Message → PeerId → Nat → List PeerId)
    (hkey : (pmes.key : PeerId) = dht.self)
    (haddr : st.peerstore dht.self ≠ []) :
    handleFindPeer dht st p pmes =
      { resp := some { NewMessage pmes.type [] pmes.clusterLevel with closerPeers := [selfPBPeer dht st] },
        err := none, st := st } ∧
    handleFindPeer { dht with betterPeersToQuery := f } st p pmes =
      handleFindPeer dht st p pmes := by
  have h1 := handleFindPeer_self dht st p pmes hkey haddr
  have h2 := handleFindPeer_self { dht with betterPeersToQuery := f } st p pmes hkey haddr
  exact ⟨h1, h2.trans h1.symm⟩

/-- Witness for C5 (amended): concrete self-lookup with a known
address, under two different routing-table oracles. -/
theorem findPeer_self_shortcut_witness :
    handleFindPeer testDHT selfAddrState [2] selfFindMsg =
      { resp := some selfFindResp, err := none, st := selfAddrState } ∧
    handleFindPeer { testDHT with betterPeersToQuery := fun _ _ _ => [[9]] }
        selfAddrState [2] selfFindMsg =
      handleFindPeer testDHT selfAddrState [2] selfFindMsg :=
  findPeer_self_shortcut testDHT selfAddrState [2] selfFindMsg
    (fun _ _ _ => [[9]]) rfl (by decide)

/-- Counterexample for C4: at a concrete input whose final datastore
persistence call fails, handlePutValue returns a non-nil message AND a
non-nil error (Go `return pmes, err`), so "never both" fails. -/
theorem putValue_both_message_and_error :
    (handlePutValue testDHT putErrState [2] putMsg).resp.isSome = true ∧
    (handlePutValue testDHT putErrState [2] putMsg).err.isSome = true := by decide

/-- C4 (amended): when the final datastore persistence call fails, the
failure is propagated as a non-nil error, but alongside it the echoed
request message (with the server-stamped record) is also returned, and
the store is unchanged. -/
theorem putValue_put_failure_returns_both (dht : IpfsDHT) (st : State) (p : PeerId)
    (pmes : Message) (rec0 : Record)
    (hrec : pmes.record = some rec0)
    (hkey : pmes.key = rec0.key)
    (hval : dht.Validator.validate rec0.key rec0.value = none)
    (hex : getRecordFromDatastore dht st (convertToDsKey rec0.key) = .ok none)
    (hput : st.datastore.putErr (convertToDsKey rec0.key) = true) :
    handlePutValue dht st p pmes =
      { resp := some { pmes with record := some { rec0 with timeReceived := formatRFC3339 dht.now } },
        err := some .dsPutErr, st := st } := by
  simp [handlePutValue, hrec, hkey, cleanRecord, hval, hex, hput]

/-- Witness for C4 (amended): the concrete put-failure input returns
the echoed stamped message together with the put error. -/
theorem putValue_put_failure_returns_both_witness :
    handlePutValue testDHT putErrState [2] putMsg =
      { resp := some { putMsg with record := some { incomingRec with timeReceived := formatRFC3339 testDHT.now } },
        err := some .dsPutErr, st := putErrState } :=
  putValue_put_failure_returns_both testDHT putErrState [2] putMsg incomingRec
    rfl rfl rfl rfl rfl

/-- Helper: converting identifiers through the peerstore and to wire
descriptors preserves the identifier list. -/
theorem map_id_PeerInfosToPBPeers (conn : PeerId → Connectedness)
    (ps : PeerId → List Addr) (l : List PeerId) :
    (PeerInfosToPBPeers conn (PeerInfos ps l)).map PBPeer.id = l := by
  simp [PeerInfosToPBPeers, PeerInfos, List.map_map, Function.comp_def]

/-- C7: for a parseable content identifier, GET_PROVIDERS never fails
and never mutates the state (a `Has` error is swallowed, not
propagated); the provider identifiers in the response are the provider
index's answer, with this node appended exactly when the local
possession check reports the content as present. -/
theorem getProviders_includes_self (dht : IpfsDHT) (st : State) (p : PeerId)
    (pmes : Message) (c : Bytes)
    (hc : dht.cidCast pmes.key = some c) :
    (handleGetProviders dht st p pmes).err = none ∧
    (handleGetProviders dht st p pmes).st = st ∧
    ((handleGetProviders dht st p pmes).resp.map
        (fun r => r.providerPeers.map PBPeer.id)) =
      some (if hasCheck st.datastore (convertToDsKey c) then
        dht.getProviders c ++ [dht.self] else dht.getProviders c) := by
  unfold handleGetProviders
  rw [hc]
  by_cases hhas : hasCheck st.datastore (convertToDsKey c) = true
  · simp [hhas, apply_ite Message.providerPeers, map_id_PeerInfosToPBPeers, NewMessage]
  · simp only [Bool.not_eq_true] at hhas
    cases hl : dht.getProviders c with
    | nil => simp [hhas, hl, apply_ite Message.providerPeers, map_id_PeerInfosToPBPeers, NewMessage]
    | cons a as =>
      simp [hhas, hl, apply_ite Message.providerPeers, map_id_PeerInfosToPBPeers, NewMessage]

/-- Witness for C7: a concrete GET_PROVIDERS whose possession check
answers true includes this node in the provider identifiers. -/
theorem getProviders_includes_self_witness :
    (handleGetProviders testDHT hasTrueState [2] (NewMessage .GET_PROVIDERS [7] 0)).err = none ∧
    (handleGetProviders testDHT hasTrueState [2] (NewMessage .GET_PROVIDERS [7] 0)).st = hasTrueState ∧
    ((handleGetProviders testDHT hasTrueState [2] (NewMessage .GET_PROVIDERS [7] 0)).resp.map
        (fun r => r.providerPeers.map PBPeer.id)) =
      some (if hasCheck hasTrueState.datastore (convertToDsKey [7]) then
        testDHT.getProviders [7] ++ [testDHT.self] else testDHT.getProviders [7]) :=
  getProviders_includes_self testDHT hasTrueState [2]
    (NewMessage .GET_PROVIDERS [7] 0) [7] rfl

/-- Helper: the provider-index contents after the ADD_PROVIDER loop are
the old contents plus one `(c, p)` association per carried record whose
identifier is the requester and which has at least one address. -/
theorem foldl_addProviderStep_providersIdx (dht : IpfsDHT) (p : PeerId) (c : Bytes)
    (l : List AddrInfo) (st : State) :
    (l.foldl (addProviderStep dht p c) st).providersIdx =
      st.providersIdx ++ List.replicate
        (l.countP (fun pi => decide (pi.id = p) && decide (1 ≤ pi.addrs.length))) (c, p) := by
  induction l generalizing st with
  | nil => simp
  | cons pi l ih =>
    by_cases h1 : pi.id = p
    · by_cases h2 : 1 ≤ pi.addrs.length
      · have hstep : (addProviderStep dht p c st pi).providersIdx =
            st.providersIdx ++ [(c, p)] := by
          unfold addProviderStep
          rw [if_neg (not_not_intro h1), if_neg (by omega)]
          dsimp only
          split <;> rfl
        rw [List.foldl_cons, ih, hstep, List.countP_cons]
        simp [h1, h2, List.replicate_succ, List.append_assoc]
      · have hstep : addProviderStep dht p c st pi = st := by
          unfold addProviderStep
          rw [if_neg (not_not_intro h1), if_pos (by omega)]
        rw [List.foldl_cons, hstep, ih, List.countP_cons]
        simp [h1, h2]
    · have hstep : addProviderStep dht p c st pi = st := by
        unfold addProviderStep
        rw [if_pos h1]
      rw [List.foldl_cons, hstep, ih, List.countP_cons]
      simp [h1]

/-- C8: for a parseable content identifier, ADD_PROVIDER returns
neither response nor error, and the provider index receives exactly one
`(content, requester)` association per carried provider record whose
identifier equals the requester and which has at least one address; the
other records are skipped. -/
theorem addProvider_exactly_valid_records (dht : IpfsDHT) (st : State) (p : PeerId)
    (pmes : Message) (c : Bytes)
    (hc : dht.cidCast pmes.key = some c) :
    (handleAddProvider dht st p pmes).resp = none ∧
    (handleAddProvider dht st p pmes).err = none ∧
    (handleAddProvider dht st p pmes).st.providersIdx =
      st.providersIdx ++ List.replicate
        ((PBPeersToPeerInfos pmes.providerPeers).countP
          (fun pi => decide (pi.id = p) && decide (1 ≤ pi.addrs.length))) (c, p) := by
  unfold handleAddProvider
  rw [hc]
  exact ⟨rfl, rfl, foldl_addProviderStep_providersIdx dht p c _ st⟩

/-- Witness for C8: of three concrete provider records (self with an
address, third party, self without address) exactly one produces an
association. -/
theorem addProvider_exactly_valid_records_witness :
    (handleAddProvider testDHT testState [2] addProvMsg).resp = none ∧
    (handleAddProvider testDHT testState [2] addProvMsg).err = none ∧
    (handleAddProvider testDHT testState [2] addProvMsg).st.providersIdx =
      testState.providersIdx ++ List.replicate
        ((PBPeersToPeerInfos addProvMsg.providerPeers).countP
          (fun pi => decide (pi.id = [2]) && decide (1 ≤ pi.addrs.length))) ([7], [2]) :=
  addProvider_exactly_valid_records testDHT testState [2] addProvMsg [7] rfl

end DhtSpec
